import Mathlib

/-!
Shallow embedding of the real-time ingestion and caching pipeline of the
fi-compass repository (`backend_main/app/services/pubsub_consumer.py`,
class `PubSubConsumer`).

Conventions of the embedding:
* Python dicts carrying a fixed set of possibly-absent keys become
  structures of `Option` fields; `data.get(k, d)` becomes `Option.getD`.
* Firestore collections become association lists `List (String × doc)`
  keyed by document id; `document(id).set` with all modelled fields listed
  becomes first-occurrence replace-or-append (`setAssoc`).
* BigQuery tables become `List row`; `insert_rows_json` inserts the rows
  the store accepts and returns whether any row was rejected (the `errors`
  value that the code logs and discards).
* Numeric payload values are modelled as `Int` (the claims under study do
  no floating-point arithmetic: prices are copied, screen-time minutes are
  added as Python `int`s).
* `datetime.utcnow()` / `firestore.SERVER_TIMESTAMP` become a `now : Nat`
  parameter threaded into the processing functions.
* Every `try/except Exception: logger.error(...)` that swallows a failure
  is modelled by the function simply leaving the state unchanged on the
  failing branch (the exception never escapes the function).
-/

set_option maxRecDepth 8000

namespace FiCompass

/-! ## Association-list helpers (Firestore collections keyed by doc id) -/

/-- First-match lookup of a key in an association list (dict read). -/
def getAssoc {β : Type} : List (String × β) → String → Option β
  | [], _ => none
  | (k0, v0) :: rest, k => if k0 = k then some v0 else getAssoc rest k

/-- Replace the first binding of `k` (or append one): Firestore
`document(k).set` when every modelled field is listed in the payload,
and Python dict assignment `d[k] = v`. -/
def setAssoc {β : Type} : List (String × β) → String → β → List (String × β)
  | [], k, v => [(k, v)]
  | (k0, v0) :: rest, k, v =>
    if k0 = k then (k0, v) :: rest else (k0, v0) :: setAssoc rest k v

/-! ## Ack/Nack decision of the consumer callbacks

`_consume_market_data` (lines 66-79) and `_consume_screentime_data`
(lines 107-120) install a per-message callback that decodes the payload,
schedules `_process_*_data` with `asyncio.create_task`, and then calls
`message.ack()` immediately; `message.nack()` runs only when the body of
the `try` block raises, i.e. when JSON decoding (or task creation) fails.
The sink outcomes are parameters of the model only to record that the
decision cannot depend on them: the processing task has merely been
scheduled when `ack()` runs, and `_process_*_data` swallows its own
exceptions anyway. -/

inductive AckResult : Type
  | ack
  | nack
deriving DecidableEq, Repr

/-- Callback of `_consume_market_data`: ack iff decoding succeeded,
regardless of the archive/cache outcomes. -/
def marketCallback (decode_ok _archive_ok _cache_ok : Bool) : AckResult :=
  if decode_ok then AckResult.ack else AckResult.nack

/-- Callback of `_consume_screentime_data`: identical decision logic. -/
def screentimeCallback (decode_ok _archive_ok _cache_ok : Bool) : AckResult :=
  if decode_ok then AckResult.ack else AckResult.nack

/-! ## Market stream: events, archive rows, cache documents -/

/-- A decoded market-tick payload: a JSON object whose relevant keys may
each be absent. `open` is a Lean keyword, hence the field `open_price`. -/
structure MarketEventRaw : Type where
  symbol : Option String
  price : Option Int
  volume : Option Int
  change : Option Int
  change_percent : Option Int
  high : Option Int
  low : Option Int
  open_price : Option Int
  timestamp : Option String
  market : Option String
deriving DecidableEq, Repr

/-- A row of the BigQuery market table (`bq_row` in
`_process_market_data`, lines 153-165). -/
structure MarketRow : Type where
  symbol : String
  price : Int
  volume : Int
  change : Int
  change_percent : Int
  high : Int
  low : Int
  open_price : Int
  timestamp : String
  market : String
  processed_at : Nat
deriving DecidableEq, Repr

/-- An entry of the `price_history` subcollection (lines 252-256). -/
structure HistEntry : Type where
  price : Int
  volume : Int
  timestamp : String
deriving DecidableEq, Repr

/-- The Firestore document `market_data/{symbol}` (`update_data`,
lines 236-246) together with its `price_history` subcollection. -/
structure MarketDoc : Type where
  symbol : String
  current_price : Int
  volume : Int
  change : Int
  change_percent : Int
  high : Int
  low : Int
  last_updated : Nat
  market : String
  history : List HistEntry
deriving DecidableEq, Repr

/-! ## Screen-time stream: events, archive rows, cache documents -/

/-- A decoded screen-time payload with possibly-absent keys. -/
structure ScreenEventRaw : Type where
  user_id : Option String
  app_name : Option String
  time_spent : Option Int
  date : Option String
  category : Option String
  device_type : Option String
deriving DecidableEq, Repr

/-- A row of the BigQuery screen-time table (`bq_row` in
`_process_screentime_data`, lines 188-196). -/
structure ScreenRow : Type where
  user_id : String
  app_name : String
  category : String
  time_spent_minutes : Int
  date : String
  device_type : String
  processed_at : Nat
deriving DecidableEq, Repr

/-- A per-app value inside the `apps` map of a daily document
(lines 298-301). -/
structure AppEntry : Type where
  time_spent : Int
  category : String
deriving DecidableEq, Repr

/-- The Firestore document `screentime_daily/{user_id}_{date}`
(lines 307-313). The `apps` dict is an association list with unique keys
in every state the code constructs. -/
structure DailyDoc : Type where
  user_id : String
  date : String
  total_time_minutes : Int
  apps : List (String × AppEntry)
  last_updated : Nat
deriving DecidableEq, Repr

/-- The Firestore document `users/{user_id}`. `phone_number` stands for
the fields written by the auth routes, which `user_ref.update`
(lines 317-320) leaves untouched. -/
structure UserDoc : Type where
  phone_number : String
  last_screentime_update : Nat
  daily_screentime_minutes : Int
deriving DecidableEq, Repr

/-! ## The pipeline state: both archive tables and both cache stores -/

/-- All stores the consumer writes: the two BigQuery tables and the
Firestore collections `market_data` (with `price_history`),
`screentime_daily` and `users`. -/
structure State : Type where
  market_table : List MarketRow
  screentime_table : List ScreenRow
  market_data : List (String × MarketDoc)
  screentime_daily : List (String × DailyDoc)
  users : List (String × UserDoc)
deriving DecidableEq, Repr

def emptyState : State :=
  { market_table := [], screentime_table := [],
    market_data := [], screentime_daily := [], users := [] }

/-! ## Archive Sink (`_insert_to_bigquery`, lines 209-226)

`insert_rows_json` inserts the rows the store accepts and returns a list
of errors describing the rejected rows; the model's `accept` predicate
plays the store's schema check. `_insert_to_bigquery` logs `errors` and
returns `None`: the Boolean in the result below is produced and then
discarded by the callers, exactly as in the source. -/

/-- Bulk insert into the market table; returns the new table and whether
any row was rejected. -/
def insertRowsMarket (accept : MarketRow → Bool) (table : List MarketRow)
    (rows : List MarketRow) : List MarketRow × Bool :=
  (table ++ rows.filter accept, rows.any fun r => !accept r)

/-- Bulk insert into the screen-time table. -/
def insertRowsScreen (accept : ScreenRow → Bool) (table : List ScreenRow)
    (rows : List ScreenRow) : List ScreenRow × Bool :=
  (table ++ rows.filter accept, rows.any fun r => !accept r)

/-- A store that accepts every row (the no-error path). -/
def acceptAllMarket : MarketRow → Bool := fun _ => true

/-- A store that rejects every row (total partial-row failure). -/
def rejectAllMarket : MarketRow → Bool := fun _ => false

def acceptAllScreen : ScreenRow → Bool := fun _ => true

/-! ## Cache Updater, market stream (`_update_market_cache`, lines 228-273) -/

/-- The smallest timestamp occurring in a history list. -/
def minTs : List HistEntry → Option String
  | [] => none
  | e :: rest =>
    match minTs rest with
    | none => some e.timestamp
    | some m => some (if decide (e.timestamp ≤ m) then e.timestamp else m)

/-- Erase the first entry carrying timestamp `t`. -/
def eraseTs (t : String) : List HistEntry → List HistEntry
  | [] => []
  | e :: rest => if e.timestamp = t then rest else e :: eraseTs t rest

/-- Remove the entry with the smallest timestamp (first one on ties):
one deletion of the `order_by('timestamp').limit(...)` batch. -/
def removeMin (h : List HistEntry) : List HistEntry :=
  match minTs h with
  | none => []
  | some m => eraseTs m h

/-- Delete the `k` oldest-by-timestamp history entries (the batch delete
of lines 266-270). -/
def deleteOldest : Nat → List HistEntry → List HistEntry
  | 0, h => h
  | k + 1, h => deleteOldest k (removeMin h)

/-- The history clean-up of lines 258-270: `count` is the number of
documents streamed by `order_by('timestamp').limit_to_last(100)`, i.e.
`min n 100`; when `count > 100` the `count - 100` oldest entries are
deleted. -/
def trimHistory (h : List HistEntry) : List HistEntry :=
  let count := min h.length 100
  if 100 < count then deleteOldest (count - 100) h else h

/-- `_update_market_cache`: rebuilds `market_data/{symbol}` from the
event (the `set` lists every modelled field, so `merge=True` amounts to
replacement here) and appends to `price_history`. KeyError on a missing
`symbol`/`price`/`timestamp` is swallowed by the enclosing `except`,
leaving the state unchanged. -/
def updateMarketCache (now : Nat) (data : MarketEventRaw) (s : State) : State :=
  match data.symbol, data.price, data.timestamp with
  | some sym, some p, some ts =>
    let oldHist := match getAssoc s.market_data sym with
      | some doc => doc.history
      | none => []
    let doc : MarketDoc :=
      { symbol := sym
        current_price := p
        volume := data.volume.getD 0
        change := data.change.getD 0
        change_percent := data.change_percent.getD 0
        high := data.high.getD p
        low := data.low.getD p
        last_updated := now
        market := data.market.getD "NSE"
        history := trimHistory (oldHist ++ [{ price := p, volume := data.volume.getD 0, timestamp := ts }]) }
    { s with market_data := setAssoc s.market_data sym doc }
  | _, _, _ => s

/-! ## Consumer processing, market stream (`_process_market_data`, lines 143-176) -/

/-- `_process_market_data`: validates presence of `symbol`, `price`,
`timestamp` (lines 146-150, early return on failure), builds `bq_row`,
inserts it (errors discarded), then updates the cache. -/
def processMarketData (accept : MarketRow → Bool) (now : Nat)
    (data : MarketEventRaw) (s : State) : State :=
  match data.symbol, data.price, data.timestamp with
  | some sym, some p, some ts =>
    let row : MarketRow :=
      { symbol := sym
        price := p
        volume := data.volume.getD 0
        change := data.change.getD 0
        change_percent := data.change_percent.getD 0
        high := data.high.getD p
        low := data.low.getD p
        open_price := data.open_price.getD p
        timestamp := ts
        market := data.market.getD "NSE"
        processed_at := now }
    let inserted := insertRowsMarket accept s.market_table [row]
    let s1 := { s with market_table := inserted.1 }
    updateMarketCache now data s1
  | _, _, _ => s

/-! ## Cache Updater, screen-time stream (`_update_screentime_cache`, lines 275-323) -/

/-- Document id of the daily summary: `f"{user_id}_{date}"` (line 283). -/
def screentimeKey (user_id date : String) : String := user_id ++ "_" ++ date

/-- Lines 286-291: the `apps` dict of the existing daily document, or an
empty dict when the document does not exist. -/
def dailyApps (s : State) (key : String) : List (String × AppEntry) :=
  match getAssoc s.screentime_daily key with
  | some doc => doc.apps
  | none => []

/-- Lines 293-301: add `time_spent` minutes to the existing entry for
`app_name` (keeping its category), or create a fresh entry. On the
unique-keyed dicts the code builds, first-occurrence update equals dict
assignment. -/
def bumpApp (apps : List (String × AppEntry)) (app_name : String)
    (minutes : Int) (cat : String) : List (String × AppEntry) :=
  match apps with
  | [] => [(app_name, { time_spent := minutes, category := cat })]
  | (k, e) :: rest =>
    if k = app_name then
      (k, { e with time_spent := e.time_spent + minutes }) :: rest
    else
      (k, e) :: bumpApp rest app_name minutes cat

/-- Line 304: `sum(app['time_spent'] for app in apps_data.values())`. -/
def totalTime (apps : List (String × AppEntry)) : Int :=
  (apps.map fun p => p.2.time_spent).sum

/-- The per-app minute total recorded for `app_name` (0 when absent). -/
def appMinutes (apps : List (String × AppEntry)) (app_name : String) : Int :=
  match getAssoc apps app_name with
  | some e => e.time_spent
  | none => 0

/-- The daily total `_update_screentime_cache` computes for an event:
the sum over the apps dict after the accumulation step. -/
def mergedTotal (s : State) (user_id date app_name : String)
    (minutes : Int) (cat : String) : Int :=
  totalTime (bumpApp (dailyApps s (screentimeKey user_id date)) app_name minutes cat)

/-- `_update_screentime_cache`: read-modify-write of the daily document
(the `set` lists every modelled field, so `merge=True` amounts to
replacement), then `user_ref.update` on `users/{user_id}`. Firestore
`update` raises NotFound when the document does not exist; the enclosing
`except` swallows that after the daily write has already happened.
KeyError on a missing required field is likewise swallowed. -/
def updateScreentimeCache (now : Nat) (data : ScreenEventRaw) (s : State) : State :=
  match data.user_id, data.date, data.app_name, data.time_spent with
  | some user_id, some date, some app_name, some minutes =>
    let key := screentimeKey user_id date
    let apps2 := bumpApp (dailyApps s key) app_name minutes (data.category.getD "Other")
    let total := totalTime apps2
    let newDoc : DailyDoc :=
      { user_id := user_id, date := date, total_time_minutes := total,
        apps := apps2, last_updated := now }
    let s1 := { s with screentime_daily := setAssoc s.screentime_daily key newDoc }
    match getAssoc s1.users user_id with
    | some u =>
      { s1 with users := setAssoc s1.users user_id { u with last_screentime_update := now, daily_screentime_minutes := total } }
    | none => s1
  | _, _, _, _ => s

/-! ## Consumer processing, screen-time stream (`_process_screentime_data`, lines 178-207) -/

/-- `_process_screentime_data`: validates presence of `user_id`,
`app_name`, `time_spent`, `date` (lines 181-185, early return on
failure; the date string itself is never parsed or checked), builds
`bq_row`, inserts it (errors discarded), then updates the cache. -/
def processScreentimeData (accept : ScreenRow → Bool) (now : Nat)
    (data : ScreenEventRaw) (s : State) : State :=
  match data.user_id, data.app_name, data.time_spent, data.date with
  | some user_id, some app_name, some minutes, some date =>
    let row : ScreenRow :=
      { user_id := user_id
        app_name := app_name
        category := data.category.getD "Other"
        time_spent_minutes := minutes
        date := date
        device_type := data.device_type.getD "mobile"
        processed_at := now }
    let inserted := insertRowsScreen accept s.screentime_table [row]
    let s1 := { s with screentime_table := inserted.1 }
    updateScreentimeCache now data s1
  | _, _, _, _ => s

/-! ## Valid (fully-populated) events

Packagings of events whose required keys are all present, used to state
properties that quantify over validated inputs without `Option` noise. -/

/-- A market event carrying its required keys (symbol supplied
separately); optional keys stay optional. -/
structure VME : Type where
  price : Int
  volume : Option Int
  change : Option Int
  change_percent : Option Int
  high : Option Int
  low : Option Int
  open_price : Option Int
  timestamp : String
  market : Option String
deriving DecidableEq, Repr

def mkMarketRaw (sym : String) (v : VME) : MarketEventRaw :=
  { symbol := some sym, price := some v.price, volume := v.volume,
    change := v.change, change_percent := v.change_percent, high := v.high,
    low := v.low, open_price := v.open_price, timestamp := some v.timestamp,
    market := v.market }

/-- A screen-time event carrying its required keys. -/
structure VSE : Type where
  user_id : String
  app_name : String
  time_spent : Int
  date : String
  category : Option String
  device_type : Option String
deriving DecidableEq, Repr

def mkScreenRaw (v : VSE) : ScreenEventRaw :=
  { user_id := some v.user_id, app_name := some v.app_name,
    time_spent := some v.time_spent, date := some v.date,
    category := v.category, device_type := v.device_type }

/-! ## Interleaving model of concurrent same-key screen-time merges

`_update_screentime_cache` performs `daily_ref.get()` (line 286) and
later `daily_ref.set(...)` (line 307) with a value computed from the
snapshot it read; no lock, transaction or precondition guards the pair,
so steps of concurrent invocations for the same `{user_id}_{date}` may
interleave arbitrarily. For a fixed user+date+app the relevant shared
datum is the per-app minute total; each concurrent merge is two atomic
store operations:
* `read t` — thread `t` snapshots the current total into its local
  `apps_data`;
* `write t` — thread `t` stores `snapshot + inc t` as the new total.
-/

inductive RMWStep : Type
  | read (tid : Nat)
  | write (tid : Nat)
deriving DecidableEq, Repr

/-- State of the interleaving: the stored total plus each thread's
snapshot register. -/
structure RMWState : Type where
  total : Int
  regs : Nat → Int

def rmwStep (inc : Nat → Int) (s : RMWState) : RMWStep → RMWState
  | RMWStep.read t => { s with regs := fun u => if u = t then s.total else s.regs u }
  | RMWStep.write t => { s with total := s.regs t + inc t }

/-- Run a schedule of interleaved read/write steps from total 0. -/
def runSchedule (inc : Nat → Int) (sched : List RMWStep) : Int :=
  (sched.foldl (rmwStep inc) { total := 0, regs := fun _ => 0 }).total

/-- The serialized schedule: each merge completes before the next reads. -/
def serializedSchedule (n : Nat) : List RMWStep :=
  (List.range n).flatMap fun t => [RMWStep.read t, RMWStep.write t]

/-- The racing schedule: every merge reads the initial total before any
merge writes. -/
def racingSchedule (n : Nat) : List RMWStep :=
  (List.range n).map RMWStep.read ++ (List.range n).map RMWStep.write

/-- 50 concurrent increments of one minute each. -/
def unitInc : Nat → Int := fun _ => 1

/-! ## Derived observations used in statements -/

/-- The length of the `price_history` subcollection of a symbol's cache
document (0 when the document does not exist). -/
def histLen (s : State) (sym : String) : Nat :=
  match getAssoc s.market_data sym with
  | some d => d.history.length
  | none => 0

/-- The archive row `_process_market_data` builds from a fully-populated
event (spelled out so table lemmas can name it). -/
def marketRowOf (now : Nat) (sym : String) (v : VME) : MarketRow :=
  { symbol := sym
    price := v.price
    volume := v.volume.getD 0
    change := v.change.getD 0
    change_percent := v.change_percent.getD 0
    high := v.high.getD v.price
    low := v.low.getD v.price
    open_price := v.open_price.getD v.price
    timestamp := v.timestamp
    market := v.market.getD "NSE"
    processed_at := now }

/-- Apply a sequence of fully-populated market events for one symbol to
the empty pipeline state, in arrival order. -/
def applyMarket (sym : String) (l : List VME) : State :=
  l.foldl (fun s v => processMarketData acceptAllMarket 0 (mkMarketRaw sym v) s) emptyState

/-- Modelled from the spec (section 3 invariant, absent from the code):
a date string has the shape YYYY-MM-DD (four digits, dash, two digits,
dash, two digits). Used only to state that the code performs no such
check. -/
def specDateWellFormed (d : String) : Bool :=
  match d.toList with
  | [y1, y2, y3, y4, s1, m1, m2, s2, d1, d2] =>
    y1.isDigit && y2.isDigit && y3.isDigit && y4.isDigit &&
    (s1 == '-') && m1.isDigit && m2.isDigit && (s2 == '-') &&
    d1.isDigit && d2.isDigit
  | _ => false

/-! ## Helper lemmas -/

theorem getAssoc_setAssoc_self {β : Type} (l : List (String × β)) (k : String) (v : β) :
    getAssoc (setAssoc l k v) k = some v := by
  induction l with
  | nil => simp [getAssoc, setAssoc]
  | cons p rest ih =>
    obtain ⟨k0, v0⟩ := p
    by_cases h : k0 = k
    · simp [setAssoc, getAssoc, h]
    · simp [setAssoc, getAssoc, h, ih]

theorem appMinutes_bumpApp (apps : List (String × AppEntry)) (n : String)
    (m : Int) (c : String) :
    appMinutes (bumpApp apps n m c) n = appMinutes apps n + m := by
  induction apps with
  | nil => simp [bumpApp, appMinutes, getAssoc]
  | cons p rest ih =>
    obtain ⟨k, e⟩ := p
    by_cases h : k = n
    · simp [bumpApp, appMinutes, getAssoc, h]
    · simp [bumpApp, appMinutes, getAssoc, h]
      simpa [appMinutes] using ih

/-- The trim step of `_update_market_cache` is the identity: the streamed
count is `min n 100`, so the `count > 100` guard of line 264 never
holds. -/
theorem trimHistory_eq (h : List HistEntry) : trimHistory h = h := by
  have hle : ¬ 100 < min h.length 100 := Nat.not_lt.mpr (Nat.min_le_right _ _)
  simp [trimHistory, hle]

/-- Processing a fully-populated market event appends exactly the rows
the store accepts to the market table. -/
theorem processMarketData_table (accept : MarketRow → Bool) (now : Nat)
    (sym : String) (v : VME) (s : State) :
    (processMarketData accept now (mkMarketRaw sym v) s).market_table
      = s.market_table ++ List.filter accept [marketRowOf now sym v] := rfl

/-- Processing a fully-populated market event overwrites `current_price`
with the event's price and grows the symbol's history by one entry. -/
theorem processMarketData_lookup (accept : MarketRow → Bool) (now : Nat)
    (sym : String) (v : VME) (s : State) :
    ((getAssoc (processMarketData accept now (mkMarketRaw sym v) s).market_data sym).map
        fun d => d.current_price) = some v.price ∧
    histLen (processMarketData accept now (mkMarketRaw sym v) s) sym = histLen s sym + 1 := by
  cases hold : getAssoc s.market_data sym <;>
    simp [processMarketData, updateMarketCache, mkMarketRaw, histLen, hold,
      getAssoc_setAssoc_self, trimHistory_eq]

theorem histLen_foldl (sym : String) (l : List VME) (s : State) :
    histLen (l.foldl (fun s v => processMarketData acceptAllMarket 0 (mkMarketRaw sym v) s) s) sym
      = histLen s sym + l.length := by
  induction l generalizing s with
  | nil => simp
  | cons v rest ih =>
    have hstep := (processMarketData_lookup acceptAllMarket 0 sym v s).2
    simp only [List.foldl_cons, ih, hstep, List.length_cons]
    omega

/-! ## Concrete fixtures used by counterexamples and witnesses -/

/-- A market payload missing `price`. -/
def evNoPrice : MarketEventRaw :=
  { symbol := some "AAPL", price := none, volume := none, change := none,
    change_percent := none, high := none, low := none, open_price := none,
    timestamp := some "2025-01-01T09:15:00", market := none }

/-- A screen-time payload missing `date`. -/
def evNoDate : ScreenEventRaw :=
  { user_id := some "u1", app_name := some "Chrome", time_spent := some 7,
    date := none, category := none, device_type := none }

/-- A screen-time payload whose `date` is present but is not a
YYYY-MM-DD date. -/
def badDateEv : ScreenEventRaw :=
  { user_id := some "u1", app_name := some "Chrome", time_spent := some 7,
    date := some "not-a-date", category := none, device_type := none }

def chromeEvent1 : VSE :=
  { user_id := "u1", app_name := "Chrome", time_spent := 10, date := "2025-01-01",
    category := none, device_type := none }

def chromeEvent2 : VSE := { chromeEvent1 with time_spent := 5 }

/-- The two Chrome events of the claim, run through the full consumer
processing in order. -/
def sChrome : State :=
  processScreentimeData acceptAllScreen 1 (mkScreenRaw chromeEvent2)
    (processScreentimeData acceptAllScreen 0 (mkScreenRaw chromeEvent1) emptyState)

/-- The i-th of 150 sequential ticks for one symbol. -/
def tickEv (i : Nat) : MarketEventRaw :=
  mkMarketRaw "AAPL"
    { price := Int.ofNat i, volume := none, change := none, change_percent := none,
      high := none, low := none, open_price := none, timestamp := toString i,
      market := none }

def run150 : State :=
  (List.range 150).foldl (fun s i => processMarketData acceptAllMarket i (tickEv i) s) emptyState

def dupTick : VME :=
  { price := 101, volume := some 5, change := none, change_percent := none,
    high := none, low := none, open_price := none,
    timestamp := "2025-01-01T09:15:00", market := none }

/-- The same validated event processed twice (simulated redelivery). -/
def dupState : State :=
  processMarketData acceptAllMarket 1 (mkMarketRaw "TCS" dupTick)
    (processMarketData acceptAllMarket 0 (mkMarketRaw "TCS" dupTick) emptyState)

def tickEarly : VME :=
  { price := 1, volume := none, change := none, change_percent := none,
    high := none, low := none, open_price := none,
    timestamp := "2025-01-01T00:00:01", market := none }

def tickLate : VME :=
  { price := 2, volume := none, change := none, change_percent := none,
    high := none, low := none, open_price := none,
    timestamp := "2025-01-01T00:00:02", market := none }

def infyTick : VME :=
  { price := 1500, volume := none, change := none, change_percent := none,
    high := none, low := none, open_price := none,
    timestamp := "2025-03-03T10:00:00", market := none }

def uDocW : UserDoc :=
  { phone_number := "+911234567890", last_screentime_update := 0,
    daily_screentime_minutes := 0 }

def sUserW : State := { emptyState with users := [("u1", uDocW)] }

def vseW : VSE :=
  { user_id := "u1", app_name := "YouTube", time_spent := 3, date := "2025-02-02",
    category := none, device_type := none }

/-! ## Claims -/

/-- Claim C1 (refuted by the code): the spec says a message is
acknowledged only when both the Archive Sink write and the Cache Updater
merge succeeded, and is nacked otherwise. The callbacks of
`_consume_market_data` and `_consume_screentime_data` instead schedule
processing as a background task and call `message.ack()` immediately:
whenever decoding succeeds the message is acked for every combination of
sink outcomes (in particular when the archive write fails), and `nack`
fires only when decoding itself raises. -/
theorem consumer_acks_before_sink_outcome :
    (∀ a c : Bool, marketCallback true a c = AckResult.ack) ∧
    (∀ a c : Bool, screentimeCallback true a c = AckResult.ack) ∧
    marketCallback false true true = AckResult.nack ∧
    screentimeCallback false true true = AckResult.nack := by decide

/-- Claim C2 (confirmed): a market event missing any of `symbol`,
`price`, `timestamp` is rejected by `_process_market_data` before any
sink write: the market archive table and the market cache collection are
both left untouched. -/
theorem market_missing_field_rejected_before_sinks (accept : MarketRow → Bool)
    (now : Nat) (data : MarketEventRaw) (s : State)
    (h : data.symbol = none ∨ data.price = none ∨ data.timestamp = none) :
    (processMarketData accept now data s).market_table = s.market_table ∧
    (processMarketData accept now data s).market_data = s.market_data := by
  have key : processMarketData accept now data s = s := by
    cases hs : data.symbol <;> cases hp : data.price <;> cases ht : data.timestamp <;>
      simp_all [processMarketData]
  rw [key]
  exact ⟨rfl, rfl⟩

theorem market_missing_field_rejected_before_sinks_witness :
    (processMarketData acceptAllMarket 0 evNoPrice emptyState).market_table
        = emptyState.market_table ∧
    (processMarketData acceptAllMarket 0 evNoPrice emptyState).market_data
        = emptyState.market_data :=
  market_missing_field_rejected_before_sinks acceptAllMarket 0 evNoPrice emptyState
    (Or.inr (Or.inl rfl))

/-- Claim C3, counterexample to the date-format half: an event whose
`date` is present but is not of shape YYYY-MM-DD is not rejected:
`_process_screentime_data` only checks key presence, so the event
reaches both sinks (a row lands in the screen-time table and a daily
cache document is created for the malformed date). -/
theorem screentime_unparsed_date_reaches_sinks :
    specDateWellFormed "not-a-date" = false ∧
    (processScreentimeData acceptAllScreen 0 badDateEv emptyState).screentime_table.length = 1 ∧
    (getAssoc (processScreentimeData acceptAllScreen 0 badDateEv emptyState).screentime_daily
        (screentimeKey "u1" "not-a-date")).isSome = true := by decide

/-- Claim C3 as amended: a screen-time event missing any of `user_id`,
`app_name`, `time_spent`, `date` is rejected before any sink write (the
date string itself is never validated). -/
theorem screentime_missing_field_rejected_before_sinks (accept : ScreenRow → Bool)
    (now : Nat) (data : ScreenEventRaw) (s : State)
    (h : data.user_id = none ∨ data.app_name = none ∨ data.time_spent = none ∨
        data.date = none) :
    (processScreentimeData accept now data s).screentime_table = s.screentime_table ∧
    (processScreentimeData accept now data s).screentime_daily = s.screentime_daily ∧
    (processScreentimeData accept now data s).users = s.users := by
  have key : processScreentimeData accept now data s = s := by
    cases h1 : data.user_id <;> cases h2 : data.app_name <;>
      cases h3 : data.time_spent <;> cases h4 : data.date <;>
        simp_all [processScreentimeData]
  rw [key]
  exact ⟨rfl, rfl, rfl⟩

theorem screentime_missing_field_rejected_before_sinks_witness :
    (processScreentimeData acceptAllScreen 0 evNoDate emptyState).screentime_table
        = emptyState.screentime_table ∧
    (processScreentimeData acceptAllScreen 0 evNoDate emptyState).screentime_daily
        = emptyState.screentime_daily ∧
    (processScreentimeData acceptAllScreen 0 evNoDate emptyState).users
        = emptyState.users :=
  screentime_missing_field_rejected_before_sinks acceptAllScreen 0 evNoDate emptyState
    (Or.inr (Or.inr (Or.inr rfl)))

/-- Claim C4 (confirmed): merging a screen-time event accumulates: the
per-app total for the event's app becomes the previous total plus the
event's minutes (the previous total being 0 when the app was absent),
the stored daily total equals the sum of the per-app totals, and the
Chrome 10-then-5 example yields per-app and daily totals of 15. -/
theorem screentime_merge_accumulates (now : Nat) (v : VSE) (s : State) :
    ((getAssoc (updateScreentimeCache now (mkScreenRaw v) s).screentime_daily
        (screentimeKey v.user_id v.date)).map fun d => appMinutes d.apps v.app_name)
      = some (appMinutes (dailyApps s (screentimeKey v.user_id v.date)) v.app_name
          + v.time_spent) ∧
    ((getAssoc (updateScreentimeCache now (mkScreenRaw v) s).screentime_daily
        (screentimeKey v.user_id v.date)).map fun d => d.total_time_minutes)
      = ((getAssoc (updateScreentimeCache now (mkScreenRaw v) s).screentime_daily
        (screentimeKey v.user_id v.date)).map fun d => totalTime d.apps) ∧
    ((getAssoc sChrome.screentime_daily (screentimeKey "u1" "2025-01-01")).map fun d =>
        (appMinutes d.apps "Chrome", d.total_time_minutes)) = some (15, 15) := by
  refine ⟨?_, ?_, by decide⟩
  · cases hu : getAssoc s.users v.user_id <;>
      simp [updateScreentimeCache, mkScreenRaw, hu, getAssoc_setAssoc_self,
        appMinutes_bumpApp]
  · cases hu : getAssoc s.users v.user_id <;>
      simp [updateScreentimeCache, mkScreenRaw, hu, getAssoc_setAssoc_self]

/-- Claim C5 (refuted by the code): after 150 sequential ticks for one
symbol the history holds all 150 entries, not the most recent 100: the
clean-up counts the stream of `limit_to_last(100)`, i.e. `min n 100`
documents, so its `count > 100` guard never fires and trimming is the
identity on every history. -/
theorem market_history_unbounded_after_150_ticks :
    ((getAssoc run150.market_data "AAPL").map fun d => d.history.length) = some 150 ∧
    ∀ h : List HistEntry, trimHistory h = h :=
  ⟨by decide, trimHistory_eq⟩

/-- Claim C6, counterexample: processing the same validated event twice
leaves two archive rows agreeing on symbol and timestamp (the dedupe
key), not one logical row. -/
theorem archive_double_append_duplicate_rows :
    (dupState.market_table.filter fun r =>
        r.symbol == "TCS" && r.timestamp == "2025-01-01T09:15:00").length = 2 ∧
    ¬ (dupState.market_table.filter fun r =>
        r.symbol == "TCS" && r.timestamp == "2025-01-01T09:15:00").length = 1 := by
  decide

/-- Claim C6 as amended: archive append is not idempotent:
`_insert_to_bigquery` supplies no dedupe key, so every delivery of the
same validated event appends one more physical row with the same
symbol and timestamp. -/
theorem archive_append_adds_row_each_delivery (sym : String) (v : VME)
    (now1 now2 : Nat) (s : State) :
    ((processMarketData acceptAllMarket now2 (mkMarketRaw sym v)
        (processMarketData acceptAllMarket now1 (mkMarketRaw sym v) s)).market_table.filter
          fun r => r.symbol == sym && r.timestamp == v.timestamp).length
      = ((s.market_table.filter fun r =>
          r.symbol == sym && r.timestamp == v.timestamp)).length + 2 := by
  rw [processMarketData_table, processMarketData_table]
  simp [acceptAllMarket, marketRowOf, List.filter_append]

/-- Claim C7, counterexample: the same two-event set applied in the two
possible orders to the empty cache yields different `current` documents;
in the second order the document shows price 1 although the event with
the latest timestamp has price 2 (last-write-wins by arrival, not by
timestamp). -/
theorem market_merge_order_dependent :
    ((getAssoc (applyMarket "TCS" [tickEarly, tickLate]).market_data "TCS").map
        fun d => d.current_price) = some 2 ∧
    ((getAssoc (applyMarket "TCS" [tickLate, tickEarly]).market_data "TCS").map
        fun d => d.current_price) = some 1 := by decide

/-- Claim C7 as amended: market cache merging is order-sensitive: after
applying any sequence of validated events for one symbol to the empty
state, `current` holds the fields of the last event applied (arrival
order), and the history holds one entry per event with no cap enforced. -/
theorem market_merge_last_write_wins (sym : String) (l : List VME) (e : VME) :
    ((getAssoc (applyMarket sym (l ++ [e])).market_data sym).map
        fun d => d.current_price) = some e.price ∧
    histLen (applyMarket sym (l ++ [e])) sym = l.length + 1 := by
  have happ : applyMarket sym (l ++ [e])
      = processMarketData acceptAllMarket 0 (mkMarketRaw sym e) (applyMarket sym l) := by
    simp [applyMarket, List.foldl_append]
  have hzero : histLen emptyState sym = 0 := by simp [histLen, emptyState, getAssoc]
  constructor
  · rw [happ]
    exact (processMarketData_lookup acceptAllMarket 0 sym e (applyMarket sym l)).1
  · rw [happ, (processMarketData_lookup acceptAllMarket 0 sym e (applyMarket sym l)).2]
    unfold applyMarket
    rw [histLen_foldl, hzero]
    omega

/-- Claim C8, counterexample: with a store that rejects every row, the
insert reports the failure, yet the consumer writes the cache anyway and
the message is acked (the error list is only logged): a row failure is
not treated as a dispatch failure and no nack occurs. -/
theorem partial_row_failure_still_acked :
    (insertRowsMarket rejectAllMarket [] [marketRowOf 0 "INFY" infyTick]).2 = true ∧
    (processMarketData rejectAllMarket 0 (mkMarketRaw "INFY" infyTick)
        emptyState).market_table.length = 0 ∧
    (getAssoc (processMarketData rejectAllMarket 0 (mkMarketRaw "INFY" infyTick)
        emptyState).market_data "INFY").isSome = true ∧
    marketCallback true false true = AckResult.ack := by decide

/-- Claim C8 as amended: `insert_rows_json` reports which rows failed,
but `_insert_to_bigquery` only logs the report: the cache update is
performed identically whatever the store accepted, and the message is
acked regardless of sink outcomes. -/
theorem row_failures_logged_not_nacked (accept : MarketRow → Bool) (now : Nat)
    (sym : String) (v : VME) (s : State) :
    (processMarketData accept now (mkMarketRaw sym v) s).market_data
      = (processMarketData acceptAllMarket now (mkMarketRaw sym v) s).market_data ∧
    (∀ a c : Bool, marketCallback true a c = AckResult.ack) :=
  ⟨rfl, by decide⟩

/-- Claim C9 (refuted by the code): `_update_screentime_cache` does
`get` then `set` on the daily document with no transaction or lock, so
concurrent merges for one user+date+app may interleave; 50 concurrent
one-minute increments whose reads all precede the writes end with a
total of 1, not the claimed 50 (the serialized schedule does give 50). -/
theorem racing_same_key_merges_lose_increments :
    runSchedule unitInc (racingSchedule 50) = 1 ∧
    runSchedule unitInc (serializedSchedule 50) = 50 := by decide

/-- Claim C10 (confirmed): when the user document exists, every
successful screen-time merge also rewrites `users/{user_id}`, setting
`daily_screentime_minutes` to the daily total just recomputed for the
merged date (overwriting the stored value unconditionally) and stamping
`last_screentime_update`, while leaving the document's other fields
alone. -/
theorem screentime_merge_writes_user_doc (now : Nat) (v : VSE) (s : State)
    (u : UserDoc) (h : getAssoc s.users v.user_id = some u) :
    getAssoc (updateScreentimeCache now (mkScreenRaw v) s).users v.user_id
      = some { phone_number := u.phone_number, last_screentime_update := now,
               daily_screentime_minutes := mergedTotal s v.user_id v.date v.app_name
                 v.time_spent (v.category.getD "Other") } := by
  simp [updateScreentimeCache, mkScreenRaw, h, getAssoc_setAssoc_self, mergedTotal]

theorem screentime_merge_writes_user_doc_witness :
    getAssoc (updateScreentimeCache 7 (mkScreenRaw vseW) sUserW).users "u1"
      = some { phone_number := "+911234567890", last_screentime_update := 7,
               daily_screentime_minutes := mergedTotal sUserW "u1" "2025-02-02"
                 "YouTube" 3 "Other" } :=
  screentime_merge_writes_user_doc 7 vseW sUserW uDocW (by decide)

end FiCompass
